import Mathlib

/-!
Verification model of the streaming aggregation and flush-throttling engine of
`scripts/claude-streamer-dev.py` (and the reporter portion shared with
`scripts/claude-streamer.py`).

Text is modelled as `List Char` (Python `str`, one unit per character).
Wall-clock instants are `Int` milliseconds.  The Slack sink is modelled as an
oracle `Nat → Bool` giving the success or failure of the n-th network call of
the run; a successful `chat.postMessage` returns a fresh handle drawn from a
counter in the state.  Network payloads are recorded as `SinkCall` values.
-/

namespace StreamerModel

/-- Streaming text configuration, `claude-streamer-dev.py` lines 46-49. -/
def STREAM_UPDATE_INTERVAL_MS : Nat := 500

/-- Minimum new characters before updating, line 47. -/
def STREAM_MIN_CHARS : Nat := 50

/-- Simple ellipsis shown while streaming, line 48. -/
def STREAM_TYPING_INDICATOR : List Char := "...".data

/-- Slack max message length used by the scripts, line 49 (limit 40000, buffer kept). -/
def SLACK_MAX_MESSAGE_LENGTH : Nat := 39000

/-- Safety cutoff for splitting, line 461: max length minus a 200-unit reserve. -/
def SAFE_CUTOFF : Nat := SLACK_MAX_MESSAGE_LENGTH - 200

/-- Marker appended to a finalized over-length message, line 478. -/
def CONTINUED_MARKER : List Char := "\n\n_[Continued in next message...]_".data

/-- Marker seeding a continuation message, line 487. -/
def contMarkerText (n : Nat) : List Char :=
  ("_[Continuation " ++ toString n ++ "]_\n\n").data

/-- Truncation notice appended by `update_slack_message`, line 117. -/
def TRUNC_NOTICE : List Char :=
  "\n\n_[Message truncated - exceeded Slack".data ++ [Char.ofNat 39] ++ "s 40KB limit]_".data

/-- Python `str.rfind(c, start, n)` scan helper: highest index `i` with
`start ≤ i < n` and `l[i] = c`, else `-1`. -/
def pyRfindGo (l : List Char) (c : Char) (start : Nat) : Nat → Int
  | 0 => -1
  | n + 1 => if start ≤ n ∧ l[n]? = some c then (n : Int) else pyRfindGo l c start n

/-- Python `str.rfind(c, start, stop)` for a single-character needle. -/
def pyRfind (l : List Char) (c : Char) (start stop : Nat) : Int :=
  pyRfindGo l c start (min stop l.length)

/-- Python whitespace characters stripped by `str.lstrip()` (ASCII portion). -/
def isPySpace (c : Char) : Bool :=
  c = ' ' ∨ c = '\t' ∨ c = '\n' ∨ c = '\r' ∨ c = Char.ofNat 11 ∨ c = Char.ofNat 12

/-- Python `str.lstrip()`. -/
def pyLstrip (l : List Char) : List Char := l.dropWhile isPySpace

/-- Break-point search of `update_stream_if_needed`, lines 464-474: nearest
newline in a 500-unit window below the safety cutoff, else nearest space in a
100-unit window, else the safety cutoff itself. -/
def breakPointOf (text : List Char) : Nat :=
  let newlinePos := pyRfind text '\n' (SAFE_CUTOFF - 500) SAFE_CUTOFF
  if 0 < newlinePos then newlinePos.toNat
  else
    let spacePos := pyRfind text ' ' (SAFE_CUTOFF - 100) SAFE_CUTOFF
    if 0 < spacePos then spacePos.toNat else SAFE_CUTOFF

/-- One network payload handed to the Slack sink: `chat.update` on an existing
message handle, or `chat.postMessage` creating a new message. -/
inductive SinkCall
  | update (ts : Nat) (text : List Char)
  | create (text : List Char)
deriving DecidableEq

/-- Mutable streaming state of the aggregator, lines 424-434: accumulated text,
open message handle, last-flush clock and length, continuation counter and the
list of finalized message handles.  `callCount` indexes the success oracle and
`nextHandle` supplies fresh handles for created messages. -/
structure AggState where
  streamingText : List Char
  streamingMsgTs : Option Nat
  lastStreamUpdate : Int
  lastStreamedLen : Nat
  continuationCount : Nat
  allMessageTsList : List Nat
  callCount : Nat
  nextHandle : Nat
deriving DecidableEq

/-- Initial aggregator state, lines 424-434. -/
def aggInit : AggState :=
  { streamingText := [], streamingMsgTs := none, lastStreamUpdate := 0,
    lastStreamedLen := 0, continuationCount := 0, allMessageTsList := [],
    callCount := 0, nextHandle := 0 }

/-- Result of one `update_stream_if_needed` call: new state, emitted sink
calls, and the returned boolean. -/
structure FlushResult where
  state : AggState
  calls : List SinkCall
  ok : Bool
deriving DecidableEq

/-- Flush predicate of lines 442-448: forced, or enough new characters and
enough elapsed time since the last flush. -/
def flushFires (now : Int) (force : Bool) (s : AggState) : Prop :=
  force = true ∨
    ((STREAM_MIN_CHARS : Int) ≤ (s.streamingText.length : Int) - (s.lastStreamedLen : Int) ∧
     (STREAM_UPDATE_INTERVAL_MS : Int) ≤ now - s.lastStreamUpdate)

instance (now : Int) (force : Bool) (s : AggState) : Decidable (flushFires now force s) := by
  unfold flushFires; infer_instance

/-- Split phase of lines 463-489: finalize the open message (if any) with the
pre-cutoff text plus the continued marker, then seed a continuation with the
lstripped remainder.  The finalize call consumes one network call whose result
is ignored by the source. -/
def splitPhase (s : AggState) : AggState × List SinkCall :=
  let breakPoint := breakPointOf s.streamingText
  let pair1 : AggState × List SinkCall :=
    match s.streamingMsgTs with
    | some ts =>
        ({ s with
           allMessageTsList := s.allMessageTsList ++ [ts],
           callCount := s.callCount + 1 },
         [SinkCall.update ts (s.streamingText.take breakPoint ++ CONTINUED_MARKER)])
    | none => (s, [])
  let remainder := pyLstrip (s.streamingText.drop breakPoint)
  ({ pair1.1 with
     continuationCount := pair1.1.continuationCount + 1,
     streamingText := contMarkerText (pair1.1.continuationCount + 1) ++ remainder,
     streamingMsgTs := none,
     lastStreamedLen := 0 },
   pair1.2)

/-- Update-or-create phase of lines 494-512: update the open message in place,
or create a new streaming message recording the fresh handle; then stamp the
flush clock and length. -/
def sendPhase (oracle : Nat → Bool) (now : Int) (force : Bool)
    (s1 : AggState) (calls1 : List SinkCall) : FlushResult :=
  let displayText2 := s1.streamingText ++ (if force then [] else STREAM_TYPING_INDICATOR)
  match s1.streamingMsgTs with
  | some ts =>
      { state :=
          { s1 with
            callCount := s1.callCount + 1,
            lastStreamUpdate := now,
            lastStreamedLen := s1.streamingText.length },
        calls := calls1 ++ [SinkCall.update ts displayText2],
        ok := oracle s1.callCount }
  | none =>
      let ok := oracle s1.callCount
      { state :=
          { s1 with
            callCount := s1.callCount + 1,
            streamingMsgTs := if ok then some s1.nextHandle else none,
            nextHandle := if ok then s1.nextHandle + 1 else s1.nextHandle,
            lastStreamUpdate := now,
            lastStreamedLen := s1.streamingText.length },
        calls := calls1 ++ [SinkCall.create displayText2],
        ok := ok }

/-- Model of `update_stream_if_needed(force)`, lines 437-512: evaluate the flush
predicate, return success on a no-op, split when the displayed text would
exceed the Slack maximum, then update or create the streaming message. -/
def update_stream_if_needed (oracle : Nat → Bool) (now : Int) (force : Bool)
    (s : AggState) : FlushResult :=
  if ¬ flushFires now force s ∨ s.streamingText = [] then
    { state := s, calls := [], ok := true }
  else
    let displayText := s.streamingText ++ (if force then [] else STREAM_TYPING_INDICATOR)
    if SLACK_MAX_MESSAGE_LENGTH < displayText.length then
      let p := splitPhase s
      sendPhase oracle now force p.1 p.2
    else
      sendPhase oracle now force s []

/-- One interaction of the read loop with the aggregator: a chunk is appended
to `streaming_text` (line 537 for text deltas, lines 552/564/580 for the
edit/write/command progress markers) and `update_stream_if_needed` runs with
the given force flag. -/
structure AggEvent where
  chunk : List Char
  now : Int
  force : Bool

/-- Append the chunk of an event and flush. -/
def stepAgg (oracle : Nat → Bool) (e : AggEvent) (s : AggState) : AggState × List SinkCall :=
  let r := update_stream_if_needed oracle e.now e.force
    { s with streamingText := s.streamingText ++ e.chunk }
  (r.state, r.calls)

/-- The read loop, restricted to its aggregator interactions. -/
def runAgg (oracle : Nat → Bool) : List AggEvent → AggState → AggState × List SinkCall
  | [], s => (s, [])
  | e :: es, s =>
      let p := stepAgg oracle e s
      let q := runAgg oracle es p.1
      (q.1, p.2 ++ q.2)

/-- Terminal-flush retry loop body, lines 664-686: run forced flushes until
one reports success or the attempt budget is exhausted (the 1-second pause
between failed attempts has no observable effect in this model). -/
def finalizeAttempts (oracle : Nat → Bool) (now : Int) :
    Nat → AggState → AggState × List SinkCall × Bool
  | 0, s => (s, [], false)
  | n + 1, s =>
      let r := update_stream_if_needed oracle now true s
      if r.ok then (r.state, r.calls, true)
      else
        let q := finalizeAttempts oracle now n r.state
        (q.1, r.calls ++ q.2.1, q.2.2)

/-- Fallback text construction, lines 693-695: when the accumulated text is
over-long, keep a leading ellipsis plus the last `SLACK_MAX_MESSAGE_LENGTH - 10`
characters (the tail, not the head). -/
def fallbackText (t : List Char) : List Char :=
  if SLACK_MAX_MESSAGE_LENGTH < t.length then
    "...\n\n".data ++ t.drop (t.length - (SLACK_MAX_MESSAGE_LENGTH - 10))
  else t

/-- The Finalizer, lines 662-700: if any text accumulated, make up to 3
terminal-flush attempts; if all fail, send the fallback as a brand-new
message. -/
def finalizeModel (oracle : Nat → Bool) (now : Int) (s : AggState) :
    AggState × List SinkCall :=
  if s.streamingText = [] then (s, [])
  else
    let r := finalizeAttempts oracle now 3 s
    if r.2.2 then (r.1, r.2.1)
    else
      ({ r.1 with callCount := r.1.callCount + 1 },
       r.2.1 ++ [SinkCall.create (fallbackText r.1.streamingText)])

/-- Text actually posted by `send_slack` (`chat.postMessage`), lines 96-110:
the text is passed to the API unchanged, with no client-side truncation. -/
def send_slack_payload (text : List Char) : List Char := text

/-- Text actually posted by `update_slack_message` (`chat.update`),
lines 112-136: client-side truncation to the maximum length plus a truncation
notice when the text is over-long. -/
def update_slack_message_payload (text : List Char) : List Char :=
  if SLACK_MAX_MESSAGE_LENGTH < text.length then
    text.take SLACK_MAX_MESSAGE_LENGTH ++ TRUNC_NOTICE
  else text

/-- Fuel-indexed splitter implementing Python `str.split(sep)` for a non-empty
separator (non-overlapping, left to right). -/
def splitSubAux (sep : List Char) : Nat → List Char → List Char → List (List Char)
  | 0, _, acc => [acc.reverse]
  | _ + 1, [], acc => [acc.reverse]
  | fuel + 1, c :: rest, acc =>
      if sep.isPrefixOf (c :: rest) then
        acc.reverse :: splitSubAux sep fuel ((c :: rest).drop sep.length) []
      else
        splitSubAux sep fuel rest (c :: acc)

/-- Python `str.split(sep)`. -/
def splitSub (sep l : List Char) : List (List Char) :=
  splitSubAux sep (l.length + 1) l []

/-- Python `path.split("/")[-1]`, line 548: the basename of a file path. -/
def filenameOf (fp : List Char) : List Char := (splitSub "/".data fp).getLastD []

/-- Python `url.split("/")[2] if "/" in url else url`, line 605.  (On inputs
where the Python expression would raise an IndexError the model yields the
empty string; no theorem below touches such inputs.) -/
def domainOf (url : List Char) : List Char :=
  if url.any (fun x => x = '/') then (splitSub "/".data url).getD 2 [] else url

/-- The command denylist of line 575. -/
def skipPrefixList : List (List Char) :=
  ["cat ".data, "head ".data, "tail ".data, "ls ".data, "pwd".data,
   "echo ".data, "grep ".data, "find ".data, "source ".data]

/-- Python `cmd_str.startswith(skip_prefixes)`. -/
def isSkippedCmd (c : List Char) : Bool := skipPrefixList.any (fun p => p.isPrefixOf c)

/-- Python `tool_input.get(key, dflt)` over the parameter mapping. -/
def getParam (input : List (List Char × List Char)) (key dflt : List Char) : List Char :=
  (List.lookup key input).getD dflt

/-- Action Reporter state, lines 407-422: the per-kind counters, the set of
already-reported filenames and the set of already-reported action keys. -/
structure ReporterState where
  edits : Nat
  writes : Nat
  reads : Nat
  commands : Nat
  globs : Nat
  greps : Nat
  webFetches : Nat
  webSearches : Nat
  tasks : Nat
  mcpCalls : Nat
  reportedFiles : List (List Char)
  reportedActions : List (List Char)
deriving DecidableEq

/-- Initial reporter state (all counters zero, both dedup sets empty). -/
def reporterInit : ReporterState :=
  { edits := 0, writes := 0, reads := 0, commands := 0, globs := 0, greps := 0,
    webFetches := 0, webSearches := 0, tasks := 0, mcpCalls := 0,
    reportedFiles := [], reportedActions := [] }

/-- Tool-use handling of `process_line`, `claude-streamer-dev.py` lines
540-634 (the edit/write/read/bash portion coincides with
`claude-streamer.py` lines 220-251).  Returns the new state and the list of
chat notification texts emitted for this invocation: for edit/write these are
the progress markers appended to the stream and force-flushed; for the other
kinds they are the `send_slack` texts. -/
def process_tool_use (s : ReporterState) (toolName : List Char)
    (input : List (List Char × List Char)) : ReporterState × List (List Char) :=
  if toolName = "Edit".data then
    let s1 := { s with edits := s.edits + 1 }
    let fp := getParam input "file_path".data []
    if fp ≠ [] then
      let fn := filenameOf fp
      if fn ∉ s1.reportedFiles then
        ({ s1 with reportedFiles := s1.reportedFiles ++ [fn] },
         ["\n_Editing `".data ++ fn ++ "`..._\n".data])
      else (s1, [])
    else (s1, [])
  else if toolName = "Write".data then
    let s1 := { s with writes := s.writes + 1 }
    let fp := getParam input "file_path".data []
    if fp ≠ [] then
      let fn := filenameOf fp
      if fn ∉ s1.reportedFiles then
        ({ s1 with reportedFiles := s1.reportedFiles ++ [fn] },
         ["\n_Creating `".data ++ fn ++ "`..._\n".data])
      else (s1, [])
    else (s1, [])
  else if toolName = "Read".data then
    ({ s with reads := s.reads + 1 }, [])
  else if toolName = "Bash".data then
    let cmd := getParam input "command".data []
    if cmd ≠ [] ∧ isSkippedCmd cmd = false then
      let displayCmd := if 50 < cmd.length then cmd.take 50 ++ "...".data else cmd
      ({ s with commands := s.commands + 1 },
       ["\n_Running `".data ++ displayCmd ++ "`..._\n".data])
    else (s, [])
  else if toolName = "Glob".data then
    let s1 := { s with globs := s.globs + 1 }
    let pat := getParam input "pattern".data []
    if pat ≠ [] ∧ "glob".data ∉ s1.reportedActions then
      ({ s1 with reportedActions := s1.reportedActions ++ ["glob".data] },
       ["Searching for files `".data ++ pat ++ "`...".data])
    else (s1, [])
  else if toolName = "Grep".data then
    let s1 := { s with greps := s.greps + 1 }
    let pat := getParam input "pattern".data []
    if pat ≠ [] ∧ "grep".data ∉ s1.reportedActions then
      ({ s1 with reportedActions := s1.reportedActions ++ ["grep".data] },
       ["Searching in files for `".data ++ pat.take 30 ++ "`...".data])
    else (s1, [])
  else if toolName = "WebFetch".data then
    let s1 := { s with webFetches := s.webFetches + 1 }
    let url := getParam input "url".data []
    if url ≠ [] then
      (s1, ["Fetching `".data ++ domainOf url ++ "`...".data])
    else (s1, [])
  else if toolName = "WebSearch".data then
    let s1 := { s with webSearches := s.webSearches + 1 }
    let q := getParam input "query".data []
    if q ≠ [] then
      let displayQ := if 40 < q.length then q.take 40 ++ "...".data else q
      (s1, ["Searching the web: `".data ++ displayQ ++ "`...".data])
    else (s1, [])
  else if toolName = "Task".data then
    ({ s with tasks := s.tasks + 1 },
     ["Spawning agent: ".data ++ getParam input "description".data "agent task".data
       ++ "...".data])
  else if "mcp__".data.isPrefixOf toolName then
    let s1 := { s with mcpCalls := s.mcpCalls + 1 }
    let parts := splitSub "__".data toolName
    if 3 ≤ parts.length then
      let server := parts.getD 1 []
      let action := parts.getD 2 []
      let key := "mcp_".data ++ server
      if key ∉ s1.reportedActions then
        ({ s1 with reportedActions := s1.reportedActions ++ [key] },
         ["Calling ".data ++ server ++ ": ".data ++ action ++ "...".data])
      else (s1, [])
    else (s1, [])
  else (s, [])

/-- Process a list of tool invocations, accumulating emitted notifications. -/
def runReporter : ReporterState → List (List Char × List (List Char × List Char)) →
    ReporterState × List (List Char)
  | s, [] => (s, [])
  | s, (n, i) :: rest =>
      let p := process_tool_use s n i
      let q := runReporter p.1 rest
      (q.1, p.2 ++ q.2)

/-- What the tail of `main` reports, lines 763-792. -/
structure FinalReport where
  markedSuccess : Bool
  errorMessageSent : Option (List Char)
  finalResultSent : Option (List Char)
deriving DecidableEq

/-- Generic error notification of line 783. -/
def GENERIC_ERROR : List Char :=
  "Sorry, something went wrong processing your request.".data

/-- Diagnostic error notification head of line 779. -/
def SORRY_HEAD : List Char := "Sorry, something went wrong: ".data

/-- Final outcome classification, lines 763-792: streamed or result text means
success (sending the result when nothing was streamed); otherwise a non-zero
exit code produces an error notification built from the first captured
unparsable line truncated to 200 characters (or a generic message); otherwise
a silent success. -/
def finalOutcome (streamingText finalResult : List Char) (returncode : Int)
    (errorLines : List (List Char)) : FinalReport :=
  if streamingText ≠ [] ∨ finalResult ≠ [] then
    { markedSuccess := true,
      errorMessageSent := none,
      finalResultSent := if streamingText = [] ∧ finalResult ≠ [] then some finalResult else none }
  else if returncode ≠ 0 then
    { markedSuccess := false,
      errorMessageSent :=
        some (match errorLines with
              | l :: _ => SORRY_HEAD ++ l.take 200
              | [] => GENERIC_ERROR),
      finalResultSent := none }
  else
    { markedSuccess := true, errorMessageSent := none, finalResultSent := none }

/-! Helper lemmas about the rfind scan. -/

theorem pyRfindGo_eq_neg_one (l : List Char) (c : Char) (start : Nat) :
    ∀ n, (∀ j, start ≤ j → j < n → l[j]? ≠ some c) → pyRfindGo l c start n = -1
  | 0, _ => rfl
  | n + 1, h => by
      unfold pyRfindGo
      rw [if_neg]
      · exact pyRfindGo_eq_neg_one l c start n fun j hj hjn => h j hj (Nat.lt_succ_of_lt hjn)
      · intro hc
        exact h n hc.1 (Nat.lt_succ_self n) hc.2

theorem pyRfindGo_eq_of (l : List Char) (c : Char) (start i : Nat)
    (hs : start ≤ i) (hc : l[i]? = some c) :
    ∀ n, i < n → (∀ j, i < j → j < n → l[j]? ≠ some c) → pyRfindGo l c start n = (i : Int)
  | 0, hin, _ => absurd hin (Nat.not_lt_zero i)
  | n + 1, hin, h => by
      unfold pyRfindGo
      rcases Nat.lt_or_ge i n with hlt | hge
      · rw [if_neg]
        · exact pyRfindGo_eq_of l c start i hs hc n hlt fun j h1 h2 => h j h1 (Nat.lt_succ_of_lt h2)
        · intro hcn
          exact h n hlt (Nat.lt_succ_self n) hcn.2
      · have hi : i = n := Nat.le_antisymm (Nat.le_of_lt_succ hin) hge
        subst hi
        rw [if_pos ⟨hs, hc⟩]

theorem pyRfind_eq_neg_one (l : List Char) (c : Char) (start stop : Nat)
    (h : ∀ j, start ≤ j → j < stop → l[j]? ≠ some c) :
    pyRfind l c start stop = -1 :=
  pyRfindGo_eq_neg_one l c start _ fun j hj hjn =>
    h j hj (lt_of_lt_of_le hjn (min_le_left _ _))

theorem pyRfind_eq_of (l : List Char) (c : Char) (start stop i : Nat)
    (hstop : stop ≤ l.length) (hs : start ≤ i) (hi : i < stop) (hc : l[i]? = some c)
    (h : ∀ j, i < j → j < stop → l[j]? ≠ some c) :
    pyRfind l c start stop = (i : Int) := by
  unfold pyRfind
  rw [min_eq_left hstop]
  exact pyRfindGo_eq_of l c start i hs hc stop hi h

/-! Case-analysis lemmas for one flush call. -/

theorem usin_no_fire (oracle : Nat → Bool) (now : Int) (force : Bool) (s : AggState)
    (h : ¬ flushFires now force s ∨ s.streamingText = []) :
    update_stream_if_needed oracle now force s = ⟨s, [], true⟩ := by
  unfold update_stream_if_needed
  rw [if_pos h]

theorem usin_fire_nosplit (oracle : Nat → Bool) (now : Int) (force : Bool) (s : AggState)
    (h1 : flushFires now force s) (h2 : s.streamingText ≠ [])
    (h3 : (s.streamingText ++ (if force then [] else STREAM_TYPING_INDICATOR)).length ≤
       SLACK_MAX_MESSAGE_LENGTH) :
    update_stream_if_needed oracle now force s = sendPhase oracle now force s [] := by
  have hcond : ¬ (¬ flushFires now force s ∨ s.streamingText = []) := by
    push_neg
    exact ⟨h1, h2⟩
  simp only [update_stream_if_needed, if_neg hcond, if_neg (not_lt.mpr h3)]

theorem usin_fire_split (oracle : Nat → Bool) (now : Int) (force : Bool) (s : AggState)
    (h1 : flushFires now force s) (h2 : s.streamingText ≠ [])
    (h3 : SLACK_MAX_MESSAGE_LENGTH <
       (s.streamingText ++ (if force then [] else STREAM_TYPING_INDICATOR)).length) :
    update_stream_if_needed oracle now force s =
      sendPhase oracle now force (splitPhase s).1 (splitPhase s).2 := by
  have hcond : ¬ (¬ flushFires now force s ∨ s.streamingText = []) := by
    push_neg
    exact ⟨h1, h2⟩
  simp only [update_stream_if_needed, if_neg hcond, if_pos h3]

theorem sendPhase_some (oracle : Nat → Bool) (now : Int) (force : Bool)
    (s1 : AggState) (calls1 : List SinkCall) (ts : Nat) (h : s1.streamingMsgTs = some ts) :
    sendPhase oracle now force s1 calls1 =
      { state :=
          { s1 with
            callCount := s1.callCount + 1,
            lastStreamUpdate := now,
            lastStreamedLen := s1.streamingText.length },
        calls := calls1 ++ [SinkCall.update ts
          (s1.streamingText ++ (if force then [] else STREAM_TYPING_INDICATOR))],
        ok := oracle s1.callCount } := by
  simp only [sendPhase, h]

theorem sendPhase_none (oracle : Nat → Bool) (now : Int) (force : Bool)
    (s1 : AggState) (calls1 : List SinkCall) (h : s1.streamingMsgTs = none) :
    sendPhase oracle now force s1 calls1 =
      { state :=
          { s1 with
            callCount := s1.callCount + 1,
            streamingMsgTs := if oracle s1.callCount then some s1.nextHandle else none,
            nextHandle := if oracle s1.callCount then s1.nextHandle + 1 else s1.nextHandle,
            lastStreamUpdate := now,
            lastStreamedLen := s1.streamingText.length },
        calls := calls1 ++ [SinkCall.create
          (s1.streamingText ++ (if force then [] else STREAM_TYPING_INDICATOR))],
        ok := oracle s1.callCount } := by
  simp only [sendPhase, h]

theorem splitPhase_some (s : AggState) (ts : Nat) (h : s.streamingMsgTs = some ts) :
    splitPhase s =
      ({ s with
         allMessageTsList := s.allMessageTsList ++ [ts],
         callCount := s.callCount + 1,
         continuationCount := s.continuationCount + 1,
         streamingText := contMarkerText (s.continuationCount + 1) ++
           pyLstrip (s.streamingText.drop (breakPointOf s.streamingText)),
         streamingMsgTs := none,
         lastStreamedLen := 0 },
       [SinkCall.update ts
         (s.streamingText.take (breakPointOf s.streamingText) ++ CONTINUED_MARKER)]) := by
  simp only [splitPhase, h]

theorem splitPhase_none (s : AggState) (h : s.streamingMsgTs = none) :
    splitPhase s =
      ({ s with
         continuationCount := s.continuationCount + 1,
         streamingText := contMarkerText (s.continuationCount + 1) ++
           pyLstrip (s.streamingText.drop (breakPointOf s.streamingText)),
         streamingMsgTs := none,
         lastStreamedLen := 0 },
       []) := by
  simp only [splitPhase, h]

theorem sendPhase_calls_ne (oracle : Nat → Bool) (now : Int) (force : Bool)
    (s1 : AggState) (calls1 : List SinkCall) :
    (sendPhase oracle now force s1 calls1).calls ≠ [] := by
  cases h : s1.streamingMsgTs with
  | some ts => rw [sendPhase_some oracle now force s1 calls1 ts h]; simp
  | none => rw [sendPhase_none oracle now force s1 calls1 h]; simp

theorem usin_fire_calls_ne (oracle : Nat → Bool) (now : Int) (force : Bool) (s : AggState)
    (h1 : flushFires now force s) (h2 : s.streamingText ≠ []) :
    (update_stream_if_needed oracle now force s).calls ≠ [] := by
  by_cases h3 : SLACK_MAX_MESSAGE_LENGTH <
      (s.streamingText ++ (if force then [] else STREAM_TYPING_INDICATOR)).length
  · rw [usin_fire_split oracle now force s h1 h2 h3]
    exact sendPhase_calls_ne oracle now force _ _
  · rw [usin_fire_nosplit oracle now force s h1 h2 (not_lt.mp h3)]
    exact sendPhase_calls_ne oracle now force _ _

/-! Claim theorems. -/

/-- C10: flushing with an empty accumulation is a successful no-op: no sink
call is made, no state field changes, and the operation reports success;
consequently the terminal-flush retry loop and fallback of the Finalizer are
skipped entirely when no text was ever accumulated. -/
theorem empty_flush_noop (oracle : Nat → Bool) (now : Int) (force : Bool) (s : AggState)
    (h : s.streamingText = []) :
    update_stream_if_needed oracle now force s = ⟨s, [], true⟩ ∧
    finalizeModel oracle now s = (s, []) := by
  refine ⟨usin_no_fire oracle now force s (Or.inr h), ?_⟩
  unfold finalizeModel
  rw [if_pos h]

theorem empty_flush_noop_witness :
    aggInit.streamingText = [] ∧
    update_stream_if_needed (fun _ => true) 700 true aggInit = ⟨aggInit, [], true⟩ ∧
    finalizeModel (fun _ => true) 700 aggInit = (aggInit, []) :=
  ⟨rfl, (empty_flush_noop (fun _ => true) 700 true aggInit rfl).1,
        (empty_flush_noop (fun _ => true) 700 true aggInit rfl).2⟩

/-- C4: flush throttling predicate: on a text-delta append a flush occurs if
and only if the number of new characters since the last flush is at least
`STREAM_MIN_CHARS` and the elapsed time is at least
`STREAM_UPDATE_INTERVAL_MS` (the delta path never forces); a forced flush on
non-empty text always occurs; and the terminal flush of a fitting text sends
the full accumulated text with no transient suffix. -/
theorem flush_throttling_predicate (oracle : Nat → Bool) (now : Int) (s : AggState)
    (d : List Char) (hd : d ≠ []) :
    (((update_stream_if_needed oracle now false
        { s with streamingText := s.streamingText ++ d }).calls ≠ []) ↔
      ((STREAM_MIN_CHARS : Int) ≤ ((s.streamingText ++ d).length : Int) - (s.lastStreamedLen : Int) ∧
       (STREAM_UPDATE_INTERVAL_MS : Int) ≤ now - s.lastStreamUpdate)) ∧
    (∀ t : AggState, t.streamingText ≠ [] →
      (update_stream_if_needed oracle now true t).calls ≠ []) ∧
    (∀ t : AggState, t.streamingText ≠ [] →
      t.streamingText.length ≤ SLACK_MAX_MESSAGE_LENGTH →
      (update_stream_if_needed oracle now true t).calls =
        [match t.streamingMsgTs with
         | some ts => SinkCall.update ts t.streamingText
         | none => SinkCall.create t.streamingText]) := by
  refine ⟨?_, ?_, ?_⟩
  · constructor
    · intro hcalls
      by_contra hrhs
      have hnf : ¬ flushFires now false { s with streamingText := s.streamingText ++ d } := by
        unfold flushFires
        simp only [Bool.false_eq_true, false_or]
        exact hrhs
      rw [usin_no_fire oracle now false _ (Or.inl hnf)] at hcalls
      exact hcalls rfl
    · intro hrhs
      have hfire : flushFires now false { s with streamingText := s.streamingText ++ d } :=
        Or.inr hrhs
      have hne : ({ s with streamingText := s.streamingText ++ d } : AggState).streamingText ≠ [] := by
        simp [hd]
      exact usin_fire_calls_ne oracle now false _ hfire hne
  · intro t ht
    exact usin_fire_calls_ne oracle now true t (Or.inl rfl) ht
  · intro t ht hlen
    have h3 : (t.streamingText ++ (if true then [] else STREAM_TYPING_INDICATOR)).length ≤
        SLACK_MAX_MESSAGE_LENGTH := by simpa using hlen
    rw [usin_fire_nosplit oracle now true t (Or.inl rfl) ht h3]
    cases hm : t.streamingMsgTs with
    | some ts => rw [sendPhase_some oracle now true t [] ts hm]; simp [hm]
    | none => rw [sendPhase_none oracle now true t [] hm]; simp [hm]

theorem flush_throttling_predicate_witness :
    ("Hello ".data ≠ ([] : List Char)) ∧
    (((update_stream_if_needed (fun _ => true) 1000000 false
        { aggInit with streamingText := aggInit.streamingText ++ "Hello ".data }).calls ≠ []) ↔
      ((STREAM_MIN_CHARS : Int) ≤
         ((aggInit.streamingText ++ "Hello ".data).length : Int) - (aggInit.lastStreamedLen : Int) ∧
       (STREAM_UPDATE_INTERVAL_MS : Int) ≤ 1000000 - aggInit.lastStreamUpdate)) ∧
    (update_stream_if_needed (fun _ => true) 1000000 false
        { aggInit with streamingText := aggInit.streamingText ++ "Hello ".data }).calls = [] := by
  refine ⟨by decide, (flush_throttling_predicate (fun _ => true) 1000000 aggInit
    "Hello ".data (by decide)).1, ?_⟩
  have h := (flush_throttling_predicate (fun _ => true) 1000000 aggInit
    "Hello ".data (by decide)).1
  by_contra hne
  have := h.mp hne
  revert this
  decide

/-- C9: sink failure during a non-terminal flush is swallowed and lossless:
the emitted payloads and the resulting accumulated text are independent of the
sink outcomes (a failure changes neither), and any firing non-terminal flush
that needs no split sends the entire accumulated text (plus the transient
indicator), so a delta left undelivered by an earlier failed flush is
contained in the next flush that occurs. -/
theorem nonterminal_flush_failure_lossless (oracle1 oracle2 : Nat → Bool) (now : Int)
    (force : Bool) (s : AggState) :
    ((update_stream_if_needed oracle1 now force s).state.streamingText =
       (update_stream_if_needed oracle2 now force s).state.streamingText ∧
     (update_stream_if_needed oracle1 now force s).calls =
       (update_stream_if_needed oracle2 now force s).calls) ∧
    (∀ t : AggState, flushFires now false t → t.streamingText ≠ [] →
      (t.streamingText ++ STREAM_TYPING_INDICATOR).length ≤ SLACK_MAX_MESSAGE_LENGTH →
      (update_stream_if_needed oracle1 now false t).calls =
        [match t.streamingMsgTs with
         | some ts => SinkCall.update ts (t.streamingText ++ STREAM_TYPING_INDICATOR)
         | none => SinkCall.create (t.streamingText ++ STREAM_TYPING_INDICATOR)] ∧
      List.IsPrefix t.streamingText (t.streamingText ++ STREAM_TYPING_INDICATOR)) := by
  constructor
  · by_cases h0 : ¬ flushFires now force s ∨ s.streamingText = []
    · rw [usin_no_fire oracle1 now force s h0, usin_no_fire oracle2 now force s h0]
      exact ⟨rfl, rfl⟩
    · push_neg at h0
      obtain ⟨h1, h2⟩ := h0
      by_cases h3 : SLACK_MAX_MESSAGE_LENGTH <
          (s.streamingText ++ (if force then [] else STREAM_TYPING_INDICATOR)).length
      · rw [usin_fire_split oracle1 now force s h1 h2 h3,
            usin_fire_split oracle2 now force s h1 h2 h3]
        cases hm : (splitPhase s).1.streamingMsgTs with
        | some ts =>
            rw [sendPhase_some oracle1 now force _ _ ts hm,
                sendPhase_some oracle2 now force _ _ ts hm]
            exact ⟨rfl, rfl⟩
        | none =>
            rw [sendPhase_none oracle1 now force _ _ hm,
                sendPhase_none oracle2 now force _ _ hm]
            exact ⟨rfl, rfl⟩
      · rw [usin_fire_nosplit oracle1 now force s h1 h2 (not_lt.mp h3),
            usin_fire_nosplit oracle2 now force s h1 h2 (not_lt.mp h3)]
        cases hm : s.streamingMsgTs with
        | some ts =>
            rw [sendPhase_some oracle1 now force _ _ ts hm,
                sendPhase_some oracle2 now force _ _ ts hm]
            exact ⟨rfl, rfl⟩
        | none =>
            rw [sendPhase_none oracle1 now force _ _ hm,
                sendPhase_none oracle2 now force _ _ hm]
            exact ⟨rfl, rfl⟩
  · intro t hfire ht hlen
    have h3 : (t.streamingText ++ (if false then [] else STREAM_TYPING_INDICATOR)).length ≤
        SLACK_MAX_MESSAGE_LENGTH := by simpa using hlen
    rw [usin_fire_nosplit oracle1 now false t hfire ht h3]
    refine ⟨?_, ⟨STREAM_TYPING_INDICATOR, rfl⟩⟩
    cases hm : t.streamingMsgTs with
    | some ts => rw [sendPhase_some oracle1 now false t [] ts hm]; simp [hm]
    | none => rw [sendPhase_none oracle1 now false t [] hm]; simp [hm]

theorem nonterminal_flush_failure_lossless_witness :
    flushFires 600 false { aggInit with streamingText := List.replicate 60 'a' } ∧
    (List.replicate 60 'a' ++ STREAM_TYPING_INDICATOR).length ≤ SLACK_MAX_MESSAGE_LENGTH ∧
    (update_stream_if_needed (fun _ => false) 600 false
        { aggInit with streamingText := List.replicate 60 'a' }).calls =
      [SinkCall.create (List.replicate 60 'a' ++ STREAM_TYPING_INDICATOR)] ∧
    List.IsPrefix (List.replicate 60 'a') (List.replicate 60 'a' ++ STREAM_TYPING_INDICATOR) := by
  have h := (nonterminal_flush_failure_lossless (fun _ => false) (fun _ => false) 600 false
    aggInit).2 { aggInit with streamingText := List.replicate 60 'a' }
    (by decide) (by decide) (by decide)
  exact ⟨by decide, by decide, h.1, h.2⟩

/-- C5 counterexample: the claim quantifies over both sink call forms, but
`send_slack` (message creation) performs no client-side truncation at all: a
39001-character text exceeding the 39000-unit maximum is passed to the sink
unchanged, with no truncation notice appended. -/
theorem send_slack_no_truncation_cex :
    SLACK_MAX_MESSAGE_LENGTH < (send_slack_payload (List.replicate 39001 'a')).length ∧
    send_slack_payload (List.replicate 39001 'a') = List.replicate 39001 'a' := by
  constructor
  · show SLACK_MAX_MESSAGE_LENGTH < (List.replicate 39001 'a').length
    rw [List.length_replicate]
    norm_num [SLACK_MAX_MESSAGE_LENGTH]
  · rfl

/-- C5 amended: client-side truncation applies to message updates only:
`update_slack_message` truncates over-long text to the maximum length and
appends a truncation notice (keeping the payload under the assumed 40000-unit
hard limit) and passes fitting text through unchanged, while `send_slack`
(message creation) always passes its text through unchanged. -/
theorem client_truncation_update_only (t : List Char) :
    (SLACK_MAX_MESSAGE_LENGTH < t.length →
      update_slack_message_payload t = t.take SLACK_MAX_MESSAGE_LENGTH ++ TRUNC_NOTICE ∧
      List.IsPrefix (t.take SLACK_MAX_MESSAGE_LENGTH) t ∧
      (update_slack_message_payload t).length =
        SLACK_MAX_MESSAGE_LENGTH + TRUNC_NOTICE.length ∧
      (update_slack_message_payload t).length < 40000) ∧
    (t.length ≤ SLACK_MAX_MESSAGE_LENGTH → update_slack_message_payload t = t) ∧
    send_slack_payload t = t := by
  refine ⟨?_, ?_, rfl⟩
  · intro h
    have heq : update_slack_message_payload t = t.take SLACK_MAX_MESSAGE_LENGTH ++ TRUNC_NOTICE := by
      unfold update_slack_message_payload
      rw [if_pos h]
    have hlen : (update_slack_message_payload t).length =
        SLACK_MAX_MESSAGE_LENGTH + TRUNC_NOTICE.length := by
      rw [heq, List.length_append, List.length_take, Nat.min_eq_left (Nat.le_of_lt h)]
    have hnotice : TRUNC_NOTICE.length = 53 := by decide
    refine ⟨heq, ⟨t.drop SLACK_MAX_MESSAGE_LENGTH, List.take_append_drop _ t⟩, hlen, ?_⟩
    rw [hlen, hnotice]
    norm_num [SLACK_MAX_MESSAGE_LENGTH]
  · intro h
    unfold update_slack_message_payload
    rw [if_neg (not_lt.mpr h)]

theorem client_truncation_update_only_witness :
    SLACK_MAX_MESSAGE_LENGTH < (List.replicate 39001 'a').length ∧
    update_slack_message_payload (List.replicate 39001 'a') =
      (List.replicate 39001 'a').take SLACK_MAX_MESSAGE_LENGTH ++ TRUNC_NOTICE ∧
    ("ok".data.length ≤ SLACK_MAX_MESSAGE_LENGTH ∧
      update_slack_message_payload "ok".data = "ok".data) := by
  have hbig : SLACK_MAX_MESSAGE_LENGTH < (List.replicate 39001 'a').length := by
    rw [List.length_replicate]
    norm_num [SLACK_MAX_MESSAGE_LENGTH]
  refine ⟨hbig, ((client_truncation_update_only (List.replicate 39001 'a')).1 hbig).1,
    by decide, ((client_truncation_update_only "ok".data).2.1 (by decide))⟩

/-- C7: final outcome classification: streamed text or result text yields a
success with no error notification; otherwise a non-zero exit status yields an
error notification carrying a length-bounded (200-character) prefix of the
first captured unparsable line, or a generic message when none was captured;
otherwise the run is a silent success with no error notification. -/
theorem final_outcome_classification (st fr : List Char) (rc : Int)
    (el : List (List Char)) :
    (st ≠ [] ∨ fr ≠ [] →
      (finalOutcome st fr rc el).markedSuccess = true ∧
      (finalOutcome st fr rc el).errorMessageSent = none) ∧
    (st = [] → fr = [] → rc ≠ 0 →
      (finalOutcome st fr rc el).markedSuccess = false ∧
      (match el with
       | l :: _ =>
           (finalOutcome st fr rc el).errorMessageSent = some (SORRY_HEAD ++ l.take 200) ∧
           (l.take 200).length ≤ 200 ∧ List.IsPrefix (l.take 200) l
       | [] => (finalOutcome st fr rc el).errorMessageSent = some GENERIC_ERROR)) ∧
    (st = [] → fr = [] → rc = 0 →
      (finalOutcome st fr rc el).markedSuccess = true ∧
      (finalOutcome st fr rc el).errorMessageSent = none) := by
  refine ⟨?_, ?_, ?_⟩
  · intro h
    unfold finalOutcome
    rw [if_pos h]
    exact ⟨rfl, rfl⟩
  · intro h1 h2 h3
    unfold finalOutcome
    rw [if_neg (by simp [h1, h2]), if_pos h3]
    refine ⟨rfl, ?_⟩
    cases el with
    | nil => rfl
    | cons l rest =>
        refine ⟨rfl, ?_, ⟨l.drop 200, List.take_append_drop 200 l⟩⟩
        rw [List.length_take]
        exact Nat.min_le_left _ _
  · intro h1 h2 h3
    unfold finalOutcome
    rw [if_neg (by simp [h1, h2]), if_neg (by simp [h3])]
    exact ⟨rfl, rfl⟩

theorem final_outcome_classification_witness :
    (("hi".data ≠ ([] : List Char) ∨ ([] : List Char) ≠ ([] : List Char)) ∧
      (finalOutcome "hi".data [] 0 []).markedSuccess = true ∧
      (finalOutcome "hi".data [] 0 []).errorMessageSent = none) ∧
    ((finalOutcome [] [] 2 ["bad line".data]).markedSuccess = false ∧
      (finalOutcome [] [] 2 ["bad line".data]).errorMessageSent =
        some (SORRY_HEAD ++ "bad line".data.take 200)) ∧
    ((finalOutcome [] [] 0 []).markedSuccess = true ∧
      (finalOutcome [] [] 0 []).errorMessageSent = none) := by
  refine ⟨⟨Or.inl (by decide), ?_⟩, ?_, ?_⟩
  · exact (final_outcome_classification "hi".data [] 0 []).1 (Or.inl (by decide))
  · have h := (final_outcome_classification [] [] 2 ["bad line".data]).2.1 rfl rfl (by decide)
    exact ⟨h.1, h.2.1⟩
  · exact (final_outcome_classification [] [] 0 []).2.2 rfl rfl rfl

/-! Reporter helper lemmas. -/

theorem getParam_single (k v dflt : List Char) : getParam [(k, v)] k dflt = v := by
  simp [getParam, List.lookup]

theorem process_tool_use_edit (s : ReporterState) (fp : List Char) (hfp : fp ≠ [])
    (hfn : filenameOf fp ∉ s.reportedFiles) :
    process_tool_use s "Edit".data [("file_path".data, fp)] =
      ({ s with edits := s.edits + 1,
                reportedFiles := s.reportedFiles ++ [filenameOf fp] },
       ["\n_Editing `".data ++ filenameOf fp ++ "`..._\n".data]) := by
  simp [process_tool_use, getParam_single, hfp, hfn]

theorem process_tool_use_edit_dup (s : ReporterState) (fp : List Char) (hfp : fp ≠ [])
    (hfn : filenameOf fp ∈ s.reportedFiles) :
    process_tool_use s "Edit".data [("file_path".data, fp)] =
      ({ s with edits := s.edits + 1 }, []) := by
  simp [process_tool_use, getParam_single, hfp, hfn]

theorem process_tool_use_glob (s : ReporterState) (p : List Char) (hp : p ≠ [])
    (hg : "glob".data ∉ s.reportedActions) :
    process_tool_use s "Glob".data [("pattern".data, p)] =
      ({ s with globs := s.globs + 1,
                reportedActions := s.reportedActions ++ ["glob".data] },
       ["Searching for files `".data ++ p ++ "`...".data]) := by
  simp [process_tool_use, getParam_single, hp, hg]

theorem process_tool_use_glob_dup (s : ReporterState) (p : List Char)
    (hg : "glob".data ∈ s.reportedActions) :
    process_tool_use s "Glob".data [("pattern".data, p)] =
      ({ s with globs := s.globs + 1 }, []) := by
  simp [process_tool_use, getParam_single, hg]

theorem process_tool_use_webfetch (s : ReporterState) (url : List Char) (hu : url ≠ []) :
    process_tool_use s "WebFetch".data [("url".data, url)] =
      ({ s with webFetches := s.webFetches + 1 },
       ["Fetching `".data ++ domainOf url ++ "`...".data]) := by
  simp [process_tool_use, getParam_single, hu]

theorem process_tool_use_read (s : ReporterState) (input : List (List Char × List Char)) :
    process_tool_use s "Read".data input = ({ s with reads := s.reads + 1 }, []) := by
  simp [process_tool_use]

theorem process_tool_use_mcp (s : ReporterState)
    (h : "mcp_srv".data ∉ s.reportedActions) :
    process_tool_use s "mcp__srv__act".data [] =
      ({ s with mcpCalls := s.mcpCalls + 1,
                reportedActions := s.reportedActions ++ ["mcp_srv".data] },
       ["Calling ".data ++ "srv".data ++ ": ".data ++ "act".data ++ "...".data]) := by
  have hs : splitSub "__".data "mcp__srv__act".data =
      ["mcp".data, "srv".data, "act".data] := by decide
  simp [process_tool_use, hs, h]

theorem process_tool_use_mcp_dup (s : ReporterState)
    (h : "mcp_srv".data ∈ s.reportedActions) :
    process_tool_use s "mcp__srv__act".data [] =
      ({ s with mcpCalls := s.mcpCalls + 1 }, []) := by
  have hs : splitSub "__".data "mcp__srv__act".data =
      ["mcp".data, "srv".data, "act".data] := by decide
  simp [process_tool_use, hs, h]

/-- C3 counterexample: the claim takes the dedup key of a web-fetch to be the
fetched domain, but the code never deduplicates web-fetch notifications: two
invocations with the very same URL (hence the same domain) both emit a
notification, so two — not exactly one — notifications are emitted while the
counter reflects both invocations. -/
theorem webfetch_dedup_cex :
    (runReporter reporterInit
      [("WebFetch".data, [("url".data, "https://example.com/x".data)]),
       ("WebFetch".data, [("url".data, "https://example.com/x".data)])]).2.length = 2 ∧
    (runReporter reporterInit
      [("WebFetch".data, [("url".data, "https://example.com/x".data)]),
       ("WebFetch".data, [("url".data, "https://example.com/x".data)])]).1.webFetches = 2 := by
  constructor <;> decide

/-- C3 amended: for every tool invocation the matching counter is incremented,
and a chat notification is deduplicated only for the resource-scoped keys the
code actually uses: the filename for edit/write, the tool kind itself (not the
pattern) for glob/grep, and the server name for external-tool calls; web-fetch
(and likewise web-search and agent-spawn) notifications are emitted on every
invocation carrying the relevant parameter, and read invocations are counted
but never notified.  Given two invocations with the same dedup key, exactly
one notification is emitted while the counters reflect both. -/
theorem notification_dedup_amended (s : ReporterState) :
    (∀ fp, fp ≠ [] → filenameOf fp ∉ s.reportedFiles →
      (process_tool_use s "Edit".data [("file_path".data, fp)]).2.length = 1 ∧
      (process_tool_use (process_tool_use s "Edit".data [("file_path".data, fp)]).1
         "Edit".data [("file_path".data, fp)]).2 = [] ∧
      (process_tool_use (process_tool_use s "Edit".data [("file_path".data, fp)]).1
         "Edit".data [("file_path".data, fp)]).1.edits = s.edits + 2) ∧
    (∀ p1 p2, p1 ≠ [] → p2 ≠ [] → "glob".data ∉ s.reportedActions →
      (process_tool_use s "Glob".data [("pattern".data, p1)]).2.length = 1 ∧
      (process_tool_use (process_tool_use s "Glob".data [("pattern".data, p1)]).1
         "Glob".data [("pattern".data, p2)]).2 = [] ∧
      (process_tool_use (process_tool_use s "Glob".data [("pattern".data, p1)]).1
         "Glob".data [("pattern".data, p2)]).1.globs = s.globs + 2) ∧
    ("mcp_srv".data ∉ s.reportedActions →
      (process_tool_use s "mcp__srv__act".data []).2.length = 1 ∧
      (process_tool_use (process_tool_use s "mcp__srv__act".data []).1
         "mcp__srv__act".data []).2 = [] ∧
      (process_tool_use (process_tool_use s "mcp__srv__act".data []).1
         "mcp__srv__act".data []).1.mcpCalls = s.mcpCalls + 2) ∧
    (∀ url, url ≠ [] →
      (process_tool_use s "WebFetch".data [("url".data, url)]).2.length = 1 ∧
      (process_tool_use (process_tool_use s "WebFetch".data [("url".data, url)]).1
         "WebFetch".data [("url".data, url)]).2.length = 1 ∧
      (process_tool_use (process_tool_use s "WebFetch".data [("url".data, url)]).1
         "WebFetch".data [("url".data, url)]).1.webFetches = s.webFetches + 2) ∧
    (∀ input, process_tool_use s "Read".data input = ({ s with reads := s.reads + 1 }, [])) := by
  refine ⟨?_, ?_, ?_, ?_, process_tool_use_read s⟩
  · intro fp hfp hfn
    rw [process_tool_use_edit s fp hfp hfn]
    rw [process_tool_use_edit_dup _ fp hfp (by simp)]
    exact ⟨rfl, rfl, rfl⟩
  · intro p1 p2 hp1 hp2 hg
    rw [process_tool_use_glob s p1 hp1 hg]
    rw [process_tool_use_glob_dup _ p2 (by simp)]
    exact ⟨rfl, rfl, rfl⟩
  · intro h
    rw [process_tool_use_mcp s h]
    rw [process_tool_use_mcp_dup _ (by simp)]
    exact ⟨rfl, rfl, rfl⟩
  · intro url hu
    rw [process_tool_use_webfetch s url hu]
    rw [process_tool_use_webfetch _ url hu]
    exact ⟨rfl, rfl, rfl⟩

theorem notification_dedup_amended_witness :
    ("a/b.txt".data ≠ ([] : List Char) ∧
      filenameOf "a/b.txt".data ∉ reporterInit.reportedFiles) ∧
    (process_tool_use reporterInit "Edit".data [("file_path".data, "a/b.txt".data)]).2.length = 1 ∧
    (process_tool_use
      (process_tool_use reporterInit "Edit".data [("file_path".data, "a/b.txt".data)]).1
      "Edit".data [("file_path".data, "a/b.txt".data)]).2 = [] ∧
    (process_tool_use
      (process_tool_use reporterInit "Edit".data [("file_path".data, "a/b.txt".data)]).1
      "Edit".data [("file_path".data, "a/b.txt".data)]).1.edits = reporterInit.edits + 2 := by
  have h := (notification_dedup_amended reporterInit).1 "a/b.txt".data (by decide) (by decide)
  exact ⟨⟨by decide, by decide⟩, h.1, h.2.1, h.2.2⟩

/-! Break-point selection (C6). -/

/-- Specification-side predicate: no occurrence of `c` in the half-open index
window. -/
def NoOccIn (l : List Char) (c : Char) (start stop : Nat) : Prop :=
  ∀ j, start ≤ j → j < stop → l[j]? ≠ some c

/-- Specification-side predicate: `i` is the nearest occurrence of `c` below
`stop` within the window, i.e. the greatest index of `c` in the window. -/
def IsLastOccIn (l : List Char) (c : Char) (start stop i : Nat) : Prop :=
  start ≤ i ∧ i < stop ∧ l[i]? = some c ∧ ∀ j, i < j → j < stop → l[j]? ≠ some c

/-- C6: split break-point selection: the break point is the nearest line break
(greatest newline index) in the 500-unit lookback window below the safety
cutoff; when that window has no newline, the nearest space in its own 100-unit
lookback window; and when neither exists, exactly the safety cutoff. -/
theorem break_point_selection (l : List Char) (hl : SAFE_CUTOFF ≤ l.length) :
    (∀ i, IsLastOccIn l '\n' (SAFE_CUTOFF - 500) SAFE_CUTOFF i → breakPointOf l = i) ∧
    (NoOccIn l '\n' (SAFE_CUTOFF - 500) SAFE_CUTOFF →
      ∀ i, IsLastOccIn l ' ' (SAFE_CUTOFF - 100) SAFE_CUTOFF i → breakPointOf l = i) ∧
    (NoOccIn l '\n' (SAFE_CUTOFF - 500) SAFE_CUTOFF →
      NoOccIn l ' ' (SAFE_CUTOFF - 100) SAFE_CUTOFF →
      breakPointOf l = SAFE_CUTOFF) := by
  refine ⟨?_, ?_, ?_⟩
  · rintro i ⟨hs, hi, hc, hmax⟩
    have hnl : pyRfind l '\n' (SAFE_CUTOFF - 500) SAFE_CUTOFF = (i : Int) :=
      pyRfind_eq_of l '\n' _ _ i hl hs hi hc hmax
    have hipos : 0 < i := lt_of_lt_of_le (by decide : 0 < SAFE_CUTOFF - 500) hs
    simp only [breakPointOf]
    rw [hnl, if_pos (by exact_mod_cast hipos)]
    simp
  · rintro hno i ⟨hs, hi, hc, hmax⟩
    have hnl : pyRfind l '\n' (SAFE_CUTOFF - 500) SAFE_CUTOFF = -1 :=
      pyRfind_eq_neg_one l '\n' _ _ hno
    have hsp : pyRfind l ' ' (SAFE_CUTOFF - 100) SAFE_CUTOFF = (i : Int) :=
      pyRfind_eq_of l ' ' _ _ i hl hs hi hc hmax
    have hipos : 0 < i := lt_of_lt_of_le (by decide : 0 < SAFE_CUTOFF - 100) hs
    simp only [breakPointOf]
    rw [hnl, if_neg (by decide), hsp, if_pos (by exact_mod_cast hipos)]
    simp
  · intro hno1 hno2
    have hnl : pyRfind l '\n' (SAFE_CUTOFF - 500) SAFE_CUTOFF = -1 :=
      pyRfind_eq_neg_one l '\n' _ _ hno1
    have hsp : pyRfind l ' ' (SAFE_CUTOFF - 100) SAFE_CUTOFF = -1 :=
      pyRfind_eq_neg_one l ' ' _ _ hno2
    simp only [breakPointOf]
    rw [hnl, if_neg (by decide), hsp, if_neg (by decide)]

/-- Concrete split scenario: 39300 characters (300 over the maximum) with a
newline 250 units before the safety cutoff, at index 38550. -/
def wText : List Char := List.replicate 38550 'a' ++ '\n' :: List.replicate 749 'b'

theorem wText_length : wText.length = 39300 := by
  rw [wText, List.length_append, List.length_cons, List.length_replicate,
     List.length_replicate]

theorem wText_nl : wText[38550]? = some '\n' := by
  rw [wText, List.getElem?_append_right (le_of_eq (List.length_replicate 38550 'a'))]
  rw [List.length_replicate, Nat.sub_self]
  exact List.getElem?_cons_zero

theorem wText_hi (j : Nat) (h1 : 38550 < j) (h2 : j < 39300) : wText[j]? = some 'b' := by
  rw [wText, List.getElem?_append_right (by rw [List.length_replicate]; omega)]
  rw [List.length_replicate]
  have hj : j - 38550 = (j - 38551) + 1 := by omega
  rw [hj, List.getElem?_cons_succ, List.getElem?_replicate, if_pos (by omega)]

theorem wText_noNlAbove (j : Nat) (hj1 : 38550 < j) (hj2 : j < SAFE_CUTOFF) :
    wText[j]? ≠ some '\n' := by
  have hsc : SAFE_CUTOFF = 38800 := rfl
  rw [wText_hi j hj1 (by omega)]
  decide

theorem wText_breakPoint : breakPointOf wText = 38550 := by
  have hrf : pyRfind wText '\n' (SAFE_CUTOFF - 500) SAFE_CUTOFF = ((38550 : Nat) : Int) := by
    refine pyRfind_eq_of wText '\n' _ _ 38550 (by rw [wText_length]; decide)
      (by decide) (by decide) wText_nl ?_
    intro j hj1 hj2
    exact wText_noNlAbove j hj1 hj2
  simp only [breakPointOf]
  rw [hrf, if_pos (by decide)]
  simp

theorem break_point_selection_witness :
    SAFE_CUTOFF ≤ wText.length ∧
    IsLastOccIn wText '\n' (SAFE_CUTOFF - 500) SAFE_CUTOFF 38550 ∧
    breakPointOf wText = 38550 := by
  have h1 : SAFE_CUTOFF ≤ wText.length := by rw [wText_length]; decide
  have h2 : IsLastOccIn wText '\n' (SAFE_CUTOFF - 500) SAFE_CUTOFF 38550 :=
    ⟨by decide, by decide, wText_nl, fun j hj1 hj2 => wText_noNlAbove j hj1 hj2⟩
  exact ⟨h1, h2, (break_point_selection wText h1).1 38550 h2⟩

/-! Split content preservation (C1). -/

/-- C1: splitting is content-preserving: when the displayed form of the
accumulated text exceeds the maximum and a message is open, the firing flush
finalizes the open message with the pre-cutoff text plus the continued marker,
starts a new message seeded with the continuation marker plus the remainder
with leading whitespace trimmed, and concatenating the pre-cutoff text, the
trimmed leading whitespace and the trimmed remainder reproduces the original
accumulated text exactly: no content character is lost or duplicated across
the split boundary except the inserted markers. -/
theorem split_is_content_preserving (oracle : Nat → Bool) (now : Int) (force : Bool)
    (s : AggState) (ts : Nat)
    (hts : s.streamingMsgTs = some ts)
    (hfire : flushFires now force s)
    (hlen : SLACK_MAX_MESSAGE_LENGTH <
      (s.streamingText ++ (if force then [] else STREAM_TYPING_INDICATOR)).length) :
    (update_stream_if_needed oracle now force s).calls =
      [SinkCall.update ts
         (s.streamingText.take (breakPointOf s.streamingText) ++ CONTINUED_MARKER),
       SinkCall.create
         ((contMarkerText (s.continuationCount + 1) ++
            pyLstrip (s.streamingText.drop (breakPointOf s.streamingText))) ++
          (if force then [] else STREAM_TYPING_INDICATOR))] ∧
    (update_stream_if_needed oracle now force s).state.streamingText =
      contMarkerText (s.continuationCount + 1) ++
        pyLstrip (s.streamingText.drop (breakPointOf s.streamingText)) ∧
    s.streamingText.take (breakPointOf s.streamingText) ++
      (List.takeWhile isPySpace (s.streamingText.drop (breakPointOf s.streamingText)) ++
       pyLstrip (s.streamingText.drop (breakPointOf s.streamingText))) = s.streamingText ∧
    (∀ c ∈ List.takeWhile isPySpace
        (s.streamingText.drop (breakPointOf s.streamingText)), isPySpace c = true) := by
  have hne : s.streamingText ≠ [] := by
    intro h0
    rw [h0] at hlen
    revert hlen
    cases force <;> decide
  rw [usin_fire_split oracle now force s hfire hne hlen, splitPhase_some s ts hts,
      sendPhase_none oracle now force _ _ rfl]
  refine ⟨by simp, by simp, ?_, ?_⟩
  · rw [pyLstrip, List.takeWhile_append_dropWhile, List.take_append_drop]
  · intro c hc
    exact List.mem_takeWhile_imp hc

/-- Aggregator state holding the concrete split scenario text with an open
message handle. -/
def wState : AggState :=
  { aggInit with streamingText := wText, streamingMsgTs := some 7 }

theorem split_is_content_preserving_witness :
    wState.streamingMsgTs = some 7 ∧
    SLACK_MAX_MESSAGE_LENGTH <
      (wState.streamingText ++ (if true then [] else STREAM_TYPING_INDICATOR)).length ∧
    breakPointOf wText = 38550 ∧
    wText.take (breakPointOf wText) ++
      (List.takeWhile isPySpace (wText.drop (breakPointOf wText)) ++
       pyLstrip (wText.drop (breakPointOf wText))) = wText ∧
    (update_stream_if_needed (fun _ => true) 0 true wState).state.streamingText =
      contMarkerText (wState.continuationCount + 1) ++
        pyLstrip (wText.drop (breakPointOf wText)) := by
  have hlen : SLACK_MAX_MESSAGE_LENGTH <
      (wState.streamingText ++ (if true then [] else STREAM_TYPING_INDICATOR)).length := by
    show SLACK_MAX_MESSAGE_LENGTH < (wText ++ []).length
    rw [List.append_nil, wText_length]
    decide
  have h := split_is_content_preserving (fun _ => true) 0 true wState 7 rfl (Or.inl rfl) hlen
  exact ⟨rfl, hlen, wText_breakPoint, h.2.2.1, h.2.1⟩

/-! Terminal flush and Finalizer (C2). -/

/-- The single sink call of a terminal flush that needs no split: update the
open message with the bare accumulated text, or create it anew. -/
def terminalCall (s : AggState) : SinkCall :=
  match s.streamingMsgTs with
  | some ts => SinkCall.update ts s.streamingText
  | none => SinkCall.create s.streamingText

theorem terminalCall_congr (t s : AggState) (hm : t.streamingMsgTs = s.streamingMsgTs)
    (ht : t.streamingText = s.streamingText) : terminalCall t = terminalCall s := by
  unfold terminalCall
  rw [hm, ht]

theorem usin_terminal_eval (oracle : Nat → Bool) (now : Int) (s : AggState)
    (h1 : s.streamingText ≠ []) (h2 : s.streamingText.length ≤ SLACK_MAX_MESSAGE_LENGTH) :
    (update_stream_if_needed oracle now true s).ok = oracle s.callCount ∧
    (update_stream_if_needed oracle now true s).calls = [terminalCall s] ∧
    (update_stream_if_needed oracle now true s).state.streamingText = s.streamingText ∧
    (update_stream_if_needed oracle now true s).state.callCount = s.callCount + 1 ∧
    (oracle s.callCount = false →
      (update_stream_if_needed oracle now true s).state.streamingMsgTs = s.streamingMsgTs) := by
  have h3 : (s.streamingText ++ (if true then [] else STREAM_TYPING_INDICATOR)).length ≤
      SLACK_MAX_MESSAGE_LENGTH := by simpa using h2
  rw [usin_fire_nosplit oracle now true s (Or.inl rfl) h1 h3]
  cases hm : s.streamingMsgTs with
  | some ts =>
      rw [sendPhase_some oracle now true s [] ts hm]
      refine ⟨rfl, ?_, rfl, rfl, fun _ => hm⟩
      simp [terminalCall, hm]
  | none =>
      rw [sendPhase_none oracle now true s [] hm]
      refine ⟨rfl, ?_, rfl, rfl, fun hf => ?_⟩
      · simp [terminalCall, hm]
      · simp [hm, hf]

theorem finalizeAttempts_succ_ok (oracle : Nat → Bool) (now : Int) (n : Nat) (s : AggState)
    (h : (update_stream_if_needed oracle now true s).ok = true) :
    finalizeAttempts oracle now (n + 1) s =
      ((update_stream_if_needed oracle now true s).state,
       (update_stream_if_needed oracle now true s).calls, true) := by
  unfold finalizeAttempts
  rw [if_pos h]

theorem finalizeAttempts_succ_fail (oracle : Nat → Bool) (now : Int) (n : Nat) (s : AggState)
    (h : (update_stream_if_needed oracle now true s).ok = false) :
    finalizeAttempts oracle now (n + 1) s =
      ((finalizeAttempts oracle now n (update_stream_if_needed oracle now true s).state).1,
       (update_stream_if_needed oracle now true s).calls ++
         (finalizeAttempts oracle now n (update_stream_if_needed oracle now true s).state).2.1,
       (finalizeAttempts oracle now n (update_stream_if_needed oracle now true s).state).2.2) := by
  have he : finalizeAttempts oracle now (n + 1) s =
      (let r := update_stream_if_needed oracle now true s
       if r.ok then (r.state, r.calls, true)
       else
         let q := finalizeAttempts oracle now n r.state
         (q.1, r.calls ++ q.2.1, q.2.2)) := rfl
  rw [he, if_neg (by simp [h])]

theorem finalizeModel_eq (oracle : Nat → Bool) (now : Int) (s : AggState)
    (h : s.streamingText ≠ []) :
    finalizeModel oracle now s =
      (if (finalizeAttempts oracle now 3 s).2.2 then
        ((finalizeAttempts oracle now 3 s).1, (finalizeAttempts oracle now 3 s).2.1)
       else
        ({ (finalizeAttempts oracle now 3 s).1 with
            callCount := (finalizeAttempts oracle now 3 s).1.callCount + 1 },
         (finalizeAttempts oracle now 3 s).2.1 ++
           [SinkCall.create (fallbackText (finalizeAttempts oracle now 3 s).1.streamingText)])) := by
  unfold finalizeModel
  rw [if_neg h]

/-- Aggregator state whose terminal flush triggers a split: 39001 accumulated
characters with an open message handle. -/
def bigState : AggState :=
  { aggInit with streamingText := List.replicate 39001 'a',
                 streamingMsgTs := some 0, nextHandle := 1 }

/-- C2 counterexample: a terminal flush of over-long text triggers a split, so
the first — and successful — terminal-flush attempt makes two sink calls (the
finalize update of the open message plus the creation of the continuation),
not exactly one as the claim requires for a success on attempt 1. -/
theorem terminal_flush_two_calls_cex :
    (update_stream_if_needed (fun _ => true) 0 true bigState).ok = true ∧
    (update_stream_if_needed (fun _ => true) 0 true bigState).calls.length = 2 ∧
    (finalizeModel (fun _ => true) 0 bigState).2.length = 2 := by
  have hne : bigState.streamingText ≠ [] := by
    show List.replicate 39001 'a' ≠ []
    intro h
    have h2 := congrArg List.length h
    rw [List.length_replicate] at h2
    exact absurd h2 (by decide)
  have hlen : SLACK_MAX_MESSAGE_LENGTH <
      (bigState.streamingText ++ (if true then [] else STREAM_TYPING_INDICATOR)).length := by
    show SLACK_MAX_MESSAGE_LENGTH < (List.replicate 39001 'a' ++ []).length
    rw [List.append_nil, List.length_replicate]
    decide
  have heq := usin_fire_split (fun _ => true) 0 true bigState (Or.inl rfl) hne hlen
  rw [splitPhase_some bigState 0 rfl, sendPhase_none (fun _ => true) 0 true _ _ rfl] at heq
  have hok : (update_stream_if_needed (fun _ => true) 0 true bigState).ok = true := by
    rw [heq]
  refine ⟨hok, ?_, ?_⟩
  · rw [heq]
    rfl
  · rw [finalizeModel_eq (fun _ => true) 0 bigState hne,
        finalizeAttempts_succ_ok (fun _ => true) 0 2 bigState hok, heq]
    rw [if_pos rfl]
    rfl

theorem finalizeAttempts_fail_step (oracle : Nat → Bool) (now : Int) (n : Nat) (s : AggState)
    (h1 : s.streamingText ≠ []) (h2 : s.streamingText.length ≤ SLACK_MAX_MESSAGE_LENGTH)
    (hf : oracle s.callCount = false) :
    ∃ s' : AggState,
      finalizeAttempts oracle now (n + 1) s =
        ((finalizeAttempts oracle now n s').1,
         terminalCall s :: (finalizeAttempts oracle now n s').2.1,
         (finalizeAttempts oracle now n s').2.2) ∧
      s'.streamingText = s.streamingText ∧
      s'.callCount = s.callCount + 1 ∧
      terminalCall s' = terminalCall s := by
  have e := usin_terminal_eval oracle now s h1 h2
  have hok : (update_stream_if_needed oracle now true s).ok = false := by
    rw [e.1]
    exact hf
  refine ⟨(update_stream_if_needed oracle now true s).state, ?_, e.2.2.1, e.2.2.2.1,
    terminalCall_congr _ _ (e.2.2.2.2 hf) e.2.2.1⟩
  rw [finalizeAttempts_succ_fail oracle now n s hok, e.2.1]
  rfl

/-- C2 amended: after the event source is exhausted with buffered text
remaining, at most 3 terminal-flush attempts are made with a fixed pause
between failed attempts; provided the remaining text fits within the sink
maximum (so that no split is triggered and each attempt makes exactly one sink
call — an attempt that triggers a split makes two), a success on attempt k+1
yields exactly k+1 sink calls, all of them the terminal-flush call, and no
fallback message; when all 3 attempts fail, exactly one fallback message is
created after the 3 flush calls, and for over-long text the fallback carries
the tail (a suffix, not a prefix) of the accumulated text truncated below the
sink maximum. -/
theorem terminal_flush_retry_then_fallback (oracle : Nat → Bool) (now : Int) (s : AggState)
    (h1 : s.streamingText ≠ []) (h2 : s.streamingText.length ≤ SLACK_MAX_MESSAGE_LENGTH) :
    (∀ k, k < 3 → (∀ i, i < k → oracle (s.callCount + i) = false) →
      oracle (s.callCount + k) = true →
      (finalizeModel oracle now s).2 = List.replicate (k + 1) (terminalCall s)) ∧
    ((∀ i, i < 3 → oracle (s.callCount + i) = false) →
      (finalizeModel oracle now s).2 =
        List.replicate 3 (terminalCall s) ++
          [SinkCall.create (fallbackText s.streamingText)] ∧
      fallbackText s.streamingText = s.streamingText) ∧
    (∀ t : List Char, SLACK_MAX_MESSAGE_LENGTH < t.length →
      fallbackText t =
        "...\n\n".data ++ t.drop (t.length - (SLACK_MAX_MESSAGE_LENGTH - 10)) ∧
      List.IsSuffix (t.drop (t.length - (SLACK_MAX_MESSAGE_LENGTH - 10))) t ∧
      (fallbackText t).length ≤ SLACK_MAX_MESSAGE_LENGTH) := by
  refine ⟨?_, ?_, ?_⟩
  · intro k hk hfails hsucc
    interval_cases k
    · have e := usin_terminal_eval oracle now s h1 h2
      have hok : (update_stream_if_needed oracle now true s).ok = true := by
        rw [e.1]
        simpa using hsucc
      have hfa : finalizeAttempts oracle now 3 s =
          ((update_stream_if_needed oracle now true s).state,
           (update_stream_if_needed oracle now true s).calls, true) :=
        finalizeAttempts_succ_ok oracle now 2 s hok
      rw [finalizeModel_eq oracle now s h1, hfa, if_pos rfl, e.2.1]
      rfl
    · obtain ⟨s1, hfa, ht1, hc1, htc1⟩ :=
        finalizeAttempts_fail_step oracle now 2 s h1 h2 (by simpa using hfails 0 (by norm_num))
      have hfa3 : finalizeAttempts oracle now 3 s =
          ((finalizeAttempts oracle now 2 s1).1,
           terminalCall s :: (finalizeAttempts oracle now 2 s1).2.1,
           (finalizeAttempts oracle now 2 s1).2.2) := hfa
      have h1' : s1.streamingText ≠ [] := by rw [ht1]; exact h1
      have h2' : s1.streamingText.length ≤ SLACK_MAX_MESSAGE_LENGTH := by rw [ht1]; exact h2
      have e1 := usin_terminal_eval oracle now s1 h1' h2'
      have hok1 : (update_stream_if_needed oracle now true s1).ok = true := by
        rw [e1.1, hc1]
        simpa using hsucc
      have hfb : finalizeAttempts oracle now 2 s1 =
          ((update_stream_if_needed oracle now true s1).state,
           (update_stream_if_needed oracle now true s1).calls, true) :=
        finalizeAttempts_succ_ok oracle now 1 s1 hok1
      rw [finalizeModel_eq oracle now s h1, hfa3, hfb, if_pos rfl, e1.2.1, htc1]
      rfl
    · obtain ⟨s1, hfa, ht1, hc1, htc1⟩ :=
        finalizeAttempts_fail_step oracle now 2 s h1 h2 (by simpa using hfails 0 (by norm_num))
      have hfa3 : finalizeAttempts oracle now 3 s =
          ((finalizeAttempts oracle now 2 s1).1,
           terminalCall s :: (finalizeAttempts oracle now 2 s1).2.1,
           (finalizeAttempts oracle now 2 s1).2.2) := hfa
      have h1' : s1.streamingText ≠ [] := by rw [ht1]; exact h1
      have h2' : s1.streamingText.length ≤ SLACK_MAX_MESSAGE_LENGTH := by rw [ht1]; exact h2
      have hf1 : oracle s1.callCount = false := by
        rw [hc1]
        simpa using hfails 1 (by norm_num)
      obtain ⟨s2, hfb, ht2, hc2, htc2⟩ :=
        finalizeAttempts_fail_step oracle now 1 s1 h1' h2' hf1
      have hfb2 : finalizeAttempts oracle now 2 s1 =
          ((finalizeAttempts oracle now 1 s2).1,
           terminalCall s1 :: (finalizeAttempts oracle now 1 s2).2.1,
           (finalizeAttempts oracle now 1 s2).2.2) := hfb
      have h1x : s2.streamingText ≠ [] := by rw [ht2]; exact h1'
      have h2x : s2.streamingText.length ≤ SLACK_MAX_MESSAGE_LENGTH := by rw [ht2]; exact h2'
      have e2 := usin_terminal_eval oracle now s2 h1x h2x
      have hok2 : (update_stream_if_needed oracle now true s2).ok = true := by
        rw [e2.1, hc2]
        rw [show s1.callCount + 1 = s.callCount + 2 from by omega]
        exact hsucc
      have hfc : finalizeAttempts oracle now 1 s2 =
          ((update_stream_if_needed oracle now true s2).state,
           (update_stream_if_needed oracle now true s2).calls, true) :=
        finalizeAttempts_succ_ok oracle now 0 s2 hok2
      rw [finalizeModel_eq oracle now s h1, hfa3, hfb2, hfc, if_pos rfl, e2.2.1, htc2, htc1]
      rfl
  · intro hfails
    obtain ⟨s1, hfa, ht1, hc1, htc1⟩ :=
      finalizeAttempts_fail_step oracle now 2 s h1 h2 (by simpa using hfails 0 (by norm_num))
    have hfa3 : finalizeAttempts oracle now 3 s =
        ((finalizeAttempts oracle now 2 s1).1,
         terminalCall s :: (finalizeAttempts oracle now 2 s1).2.1,
         (finalizeAttempts oracle now 2 s1).2.2) := hfa
    have h1' : s1.streamingText ≠ [] := by rw [ht1]; exact h1
    have h2' : s1.streamingText.length ≤ SLACK_MAX_MESSAGE_LENGTH := by rw [ht1]; exact h2
    have hf1 : oracle s1.callCount = false := by
      rw [hc1]
      simpa using hfails 1 (by norm_num)
    obtain ⟨s2, hfb, ht2, hc2, htc2⟩ :=
      finalizeAttempts_fail_step oracle now 1 s1 h1' h2' hf1
    have hfb2 : finalizeAttempts oracle now 2 s1 =
        ((finalizeAttempts oracle now 1 s2).1,
         terminalCall s1 :: (finalizeAttempts oracle now 1 s2).2.1,
         (finalizeAttempts oracle now 1 s2).2.2) := hfb
    have h1x : s2.streamingText ≠ [] := by rw [ht2]; exact h1'
    have h2x : s2.streamingText.length ≤ SLACK_MAX_MESSAGE_LENGTH := by rw [ht2]; exact h2'
    have hf2 : oracle s2.callCount = false := by
      rw [hc2]
      rw [show s1.callCount + 1 = s.callCount + 2 from by omega]
      exact hfails 2 (by norm_num)
    obtain ⟨s3, hfc, ht3, hc3, htc3⟩ :=
      finalizeAttempts_fail_step oracle now 0 s2 h1x h2x hf2
    have hfc1 : finalizeAttempts oracle now 1 s2 =
        ((finalizeAttempts oracle now 0 s3).1,
         terminalCall s2 :: (finalizeAttempts oracle now 0 s3).2.1,
         (finalizeAttempts oracle now 0 s3).2.2) := hfc
    have hfa0 : finalizeAttempts oracle now 0 s3 = (s3, [], false) := rfl
    have hfallback : fallbackText s.streamingText = s.streamingText := by
      unfold fallbackText
      rw [if_neg (not_lt.mpr h2)]
    constructor
    · rw [finalizeModel_eq oracle now s h1, hfa3, hfb2, hfc1, hfa0, if_neg (by simp)]
      simp [ht3, ht2, ht1, htc2, htc1]
    · exact hfallback
  · intro t ht
    have heqv : fallbackText t =
        "...\n\n".data ++ t.drop (t.length - (SLACK_MAX_MESSAGE_LENGTH - 10)) := by
      unfold fallbackText
      rw [if_pos ht]
    refine ⟨heqv, ⟨t.take (t.length - (SLACK_MAX_MESSAGE_LENGTH - 10)),
      List.take_append_drop _ t⟩, ?_⟩
    rw [heqv, List.length_append, List.length_drop]
    have h5 : "...\n\n".data.length = 5 := by decide
    have hS : SLACK_MAX_MESSAGE_LENGTH = 39000 := rfl
    rw [h5, hS] at *
    omega

/-- Small fitting state for the terminal-flush retry scenario. -/
def wsState : AggState :=
  { aggInit with streamingText := "hi".data, streamingMsgTs := some 5 }

theorem terminal_flush_retry_then_fallback_witness :
    wsState.streamingText ≠ [] ∧
    wsState.streamingText.length ≤ SLACK_MAX_MESSAGE_LENGTH ∧
    (∀ i, i < 2 → (fun j => decide (j = 2)) (wsState.callCount + i) = false) ∧
    (fun j => decide (j = 2)) (wsState.callCount + 2) = true ∧
    (finalizeModel (fun j => decide (j = 2)) 0 wsState).2 =
      List.replicate 3 (terminalCall wsState) := by
  have hne : wsState.streamingText ≠ [] := by decide
  have hle : wsState.streamingText.length ≤ SLACK_MAX_MESSAGE_LENGTH := by decide
  have hfails : ∀ i, i < 2 → (fun j => decide (j = 2)) (wsState.callCount + i) = false := by
    intro i hi
    interval_cases i <;> rfl
  have hsucc : (fun j => decide (j = 2)) (wsState.callCount + 2) = true := rfl
  exact ⟨hne, hle, hfails, hsucc,
    (terminal_flush_retry_then_fallback (fun j => decide (j = 2)) 0 wsState hne hle).1 2
      (by norm_num) hfails hsucc⟩

/-! Single-open-message invariant (C8). -/

/-- Handle-freshness invariant: the open handle and all finalized handles lie
below the fresh-handle counter, and the open handle is never already
finalized. -/
def AggInv (s : AggState) : Prop :=
  (∀ h, s.streamingMsgTs = some h → h < s.nextHandle ∧ h ∉ s.allMessageTsList) ∧
  (∀ h, h ∈ s.allMessageTsList → h < s.nextHandle)

theorem aggInv_init : AggInv aggInit := by
  constructor
  · intro h hh
    simp [aggInit] at hh
  · intro h hh
    simp [aggInit] at hh

theorem sendPhase_update_targets (oracle : Nat → Bool) (now : Int) (force : Bool)
    (s1 : AggState) (calls1 : List SinkCall) :
    ∀ h t, SinkCall.update h t ∈ (sendPhase oracle now force s1 calls1).calls →
      SinkCall.update h t ∈ calls1 ∨ s1.streamingMsgTs = some h := by
  intro h t hmem
  cases hm : s1.streamingMsgTs with
  | some ts =>
      rw [sendPhase_some oracle now force s1 calls1 ts hm] at hmem
      rcases List.mem_append.mp hmem with hin | hin
      · exact Or.inl hin
      · have heq := List.mem_singleton.mp hin
        simp only [SinkCall.update.injEq] at heq
        rw [heq.1]
        exact Or.inr rfl
  | none =>
      rw [sendPhase_none oracle now force s1 calls1 hm] at hmem
      rcases List.mem_append.mp hmem with hin | hin
      · exact Or.inl hin
      · exact absurd (List.mem_singleton.mp hin) (by simp)

theorem sendPhase_state_inv (oracle : Nat → Bool) (now : Int) (force : Bool)
    (s1 : AggState) (calls1 : List SinkCall) (hInv : AggInv s1) :
    AggInv (sendPhase oracle now force s1 calls1).state ∧
    (sendPhase oracle now force s1 calls1).state.allMessageTsList = s1.allMessageTsList := by
  cases hm : s1.streamingMsgTs with
  | some ts =>
      rw [sendPhase_some oracle now force s1 calls1 ts hm]
      exact ⟨⟨hInv.1, hInv.2⟩, rfl⟩
  | none =>
      rw [sendPhase_none oracle now force s1 calls1 hm]
      refine ⟨⟨?_, ?_⟩, rfl⟩
      · intro h hh
        by_cases ho : oracle s1.callCount = true
        · simp only [ho, if_true, if_pos] at hh ⊢
          rw [Option.some.injEq] at hh
          subst hh
          refine ⟨by omega, fun hcon => ?_⟩
          exact absurd (hInv.2 _ hcon) (by omega)
        · simp only [Bool.not_eq_true] at ho
          simp [ho] at hh
      · intro h hh
        have hlt := hInv.2 h hh
        by_cases ho : oracle s1.callCount = true
        · simp only [ho, if_true]
          omega
        · simp only [Bool.not_eq_true] at ho
          simp only [ho, Bool.false_eq_true, if_false]
          exact hlt

theorem splitPhase_update_targets (s : AggState) :
    ∀ h t, SinkCall.update h t ∈ (splitPhase s).2 → s.streamingMsgTs = some h := by
  intro h t hmem
  cases hm : s.streamingMsgTs with
  | some ts =>
      rw [splitPhase_some s ts hm] at hmem
      have heq := List.mem_singleton.mp hmem
      simp only [SinkCall.update.injEq] at heq
      rw [heq.1]
  | none =>
      rw [splitPhase_none s hm] at hmem
      exact absurd hmem (List.not_mem_nil _)

theorem splitPhase_msgTs_none (s : AggState) : (splitPhase s).1.streamingMsgTs = none := by
  cases hm : s.streamingMsgTs with
  | some ts => rw [splitPhase_some s ts hm]
  | none => rw [splitPhase_none s hm]

theorem splitPhase_inv (s : AggState) (hInv : AggInv s) :
    AggInv (splitPhase s).1 ∧
    (∀ h, h ∈ s.allMessageTsList → h ∈ (splitPhase s).1.allMessageTsList) := by
  cases hm : s.streamingMsgTs with
  | some ts =>
      rw [splitPhase_some s ts hm]
      obtain ⟨hlt, hnin⟩ := hInv.1 ts hm
      refine ⟨⟨?_, ?_⟩, ?_⟩
      · intro h hh
        simp at hh
      · intro h hh
        rcases List.mem_append.mp hh with hin | hin
        · exact hInv.2 h hin
        · rw [List.mem_singleton.mp hin]
          exact hlt
      · intro h hh
        exact List.mem_append_left _ hh
  | none =>
      rw [splitPhase_none s hm]
      refine ⟨⟨?_, hInv.2⟩, fun h hh => hh⟩
      intro h hh
      simp at hh

theorem usin_update_targets (oracle : Nat → Bool) (now : Int) (force : Bool) (s : AggState) :
    ∀ h t, SinkCall.update h t ∈ (update_stream_if_needed oracle now force s).calls →
      s.streamingMsgTs = some h := by
  intro h t hmem
  by_cases h0 : ¬ flushFires now force s ∨ s.streamingText = []
  · rw [usin_no_fire oracle now force s h0] at hmem
    exact absurd hmem (List.not_mem_nil _)
  · push_neg at h0
    by_cases h3 : SLACK_MAX_MESSAGE_LENGTH <
        (s.streamingText ++ (if force then [] else STREAM_TYPING_INDICATOR)).length
    · rw [usin_fire_split oracle now force s h0.1 h0.2 h3] at hmem
      rcases sendPhase_update_targets oracle now force _ _ h t hmem with hin | hopen
      · exact splitPhase_update_targets s h t hin
      · rw [splitPhase_msgTs_none s] at hopen
        exact absurd hopen (by simp)
    · rw [usin_fire_nosplit oracle now force s h0.1 h0.2 (not_lt.mp h3)] at hmem
      rcases sendPhase_update_targets oracle now force s [] h t hmem with hin | hopen
      · exact absurd hin (List.not_mem_nil _)
      · exact hopen

theorem usin_inv (oracle : Nat → Bool) (now : Int) (force : Bool) (s : AggState)
    (hInv : AggInv s) :
    AggInv (update_stream_if_needed oracle now force s).state ∧
    (∀ h, h ∈ s.allMessageTsList →
       h ∈ (update_stream_if_needed oracle now force s).state.allMessageTsList) := by
  by_cases h0 : ¬ flushFires now force s ∨ s.streamingText = []
  · rw [usin_no_fire oracle now force s h0]
    exact ⟨hInv, fun h hh => hh⟩
  · push_neg at h0
    by_cases h3 : SLACK_MAX_MESSAGE_LENGTH <
        (s.streamingText ++ (if force then [] else STREAM_TYPING_INDICATOR)).length
    · rw [usin_fire_split oracle now force s h0.1 h0.2 h3]
      have hsp := splitPhase_inv s hInv
      have hse := sendPhase_state_inv oracle now force (splitPhase s).1 (splitPhase s).2 hsp.1
      refine ⟨hse.1, ?_⟩
      intro h hh
      rw [hse.2]
      exact hsp.2 h hh
    · rw [usin_fire_nosplit oracle now force s h0.1 h0.2 (not_lt.mp h3)]
      have hse := sendPhase_state_inv oracle now force s [] hInv
      refine ⟨hse.1, ?_⟩
      intro h hh
      rw [hse.2]
      exact hh

theorem runAgg_inv (oracle : Nat → Bool) (es : List AggEvent) (s : AggState)
    (hInv : AggInv s) :
    AggInv (runAgg oracle es s).1 ∧
    (∀ h, h ∈ s.allMessageTsList → h ∈ (runAgg oracle es s).1.allMessageTsList) ∧
    (∀ h t, SinkCall.update h t ∈ (runAgg oracle es s).2 → h ∉ s.allMessageTsList) := by
  induction es generalizing s with
  | nil => exact ⟨hInv, fun h hh => hh, fun h t hmem => absurd hmem (List.not_mem_nil _)⟩
  | cons e rest ih =>
      simp only [runAgg, stepAgg]
      have hInv' : AggInv { s with streamingText := s.streamingText ++ e.chunk } := hInv
      have hu := usin_inv oracle e.now e.force _ hInv'
      have hut := usin_update_targets oracle e.now e.force
        { s with streamingText := s.streamingText ++ e.chunk }
      have hq := ih _ hu.1
      refine ⟨hq.1, ?_, ?_⟩
      · intro h hh
        exact hq.2.1 h (hu.2 h hh)
      · intro h t hmem hcon
        rcases List.mem_append.mp hmem with hin | hin
        · exact (hInv.1 h (hut h t hin)).2 hcon
        · exact hq.2.2 h t hin (hu.2 h hcon)

theorem finalizeAttempts_inv (oracle : Nat → Bool) (now : Int) (n : Nat) (s : AggState)
    (hInv : AggInv s) :
    AggInv (finalizeAttempts oracle now n s).1 ∧
    (∀ h, h ∈ s.allMessageTsList →
       h ∈ (finalizeAttempts oracle now n s).1.allMessageTsList) ∧
    (∀ h t, SinkCall.update h t ∈ (finalizeAttempts oracle now n s).2.1 →
       h ∉ s.allMessageTsList) := by
  induction n generalizing s with
  | zero => exact ⟨hInv, fun h hh => hh, fun h t hmem => absurd hmem (List.not_mem_nil _)⟩
  | succ n ih =>
      have hu := usin_inv oracle now true s hInv
      have hut := usin_update_targets oracle now true s
      by_cases hok : (update_stream_if_needed oracle now true s).ok = true
      · rw [finalizeAttempts_succ_ok oracle now n s hok]
        refine ⟨hu.1, hu.2, ?_⟩
        intro h t hmem hcon
        exact (hInv.1 h (hut h t hmem)).2 hcon
      · have hokf : (update_stream_if_needed oracle now true s).ok = false := by
          cases hb : (update_stream_if_needed oracle now true s).ok
          · rfl
          · exact absurd hb hok
        rw [finalizeAttempts_succ_fail oracle now n s hokf]
        have hq := ih _ hu.1
        refine ⟨hq.1, fun h hh => hq.2.1 h (hu.2 h hh), ?_⟩
        intro h t hmem hcon
        rcases List.mem_append.mp hmem with hin | hin
        · exact (hInv.1 h (hut h t hin)).2 hcon
        · exact hq.2.2 h t hin (hu.2 h hcon)

theorem finalizeModel_updates_fresh (oracle : Nat → Bool) (now : Int) (s : AggState)
    (hInv : AggInv s) :
    ∀ h t, SinkCall.update h t ∈ (finalizeModel oracle now s).2 →
      h ∉ s.allMessageTsList := by
  by_cases he : s.streamingText = []
  · intro h t hmem
    unfold finalizeModel at hmem
    rw [if_pos he] at hmem
    exact absurd hmem (List.not_mem_nil _)
  · rw [finalizeModel_eq oracle now s he]
    have hfa := finalizeAttempts_inv oracle now 3 s hInv
    by_cases hb : (finalizeAttempts oracle now 3 s).2.2 = true
    · rw [if_pos hb]
      exact fun h t hmem => hfa.2.2 h t hmem
    · rw [if_neg hb]
      intro h t hmem
      rcases List.mem_append.mp hmem with hin | hin
      · exact hfa.2.2 h t hin
      · exact absurd (List.mem_singleton.mp hin) (by simp)

theorem runAgg_append (oracle : Nat → Bool) (es1 es2 : List AggEvent) (s : AggState) :
    runAgg oracle (es1 ++ es2) s =
      ((runAgg oracle es2 (runAgg oracle es1 s).1).1,
       (runAgg oracle es1 s).2 ++ (runAgg oracle es2 (runAgg oracle es1 s).1).2) := by
  induction es1 generalizing s with
  | nil => simp [runAgg]
  | cons e rest ih =>
      simp only [List.cons_append, runAgg]
      rw [List.append_eq, ih]
      simp [List.append_assoc]

/-- C8: single-open-message invariant: every sink update issued by a flush
targets the unique currently-open message handle of the state it runs in (at
most one message is ever open for update), and a handle finalized by a split
during the first segment of a run is never updated again by any later flush or
by the Finalizer, which must obtain a new handle by creating a message before
further updates; the final equation identifies the segmented run with the
plain run.  (After the terminal flush the source performs only message
creations, so terminally-flushed handles are likewise never updated again.) -/
theorem single_open_message_invariant (oracle : Nat → Bool) (es1 es2 : List AggEvent)
    (nowF : Int) :
    (∀ s now f h t, SinkCall.update h t ∈ (update_stream_if_needed oracle now f s).calls →
       s.streamingMsgTs = some h) ∧
    (∀ h t, h ∈ (runAgg oracle es1 aggInit).1.allMessageTsList →
       SinkCall.update h t ∉
         ((runAgg oracle es2 (runAgg oracle es1 aggInit).1).2 ++
          (finalizeModel oracle nowF (runAgg oracle es2 (runAgg oracle es1 aggInit).1).1).2)) ∧
    runAgg oracle (es1 ++ es2) aggInit =
      ((runAgg oracle es2 (runAgg oracle es1 aggInit).1).1,
       (runAgg oracle es1 aggInit).2 ++ (runAgg oracle es2 (runAgg oracle es1 aggInit).1).2) := by
  refine ⟨fun s now f => usin_update_targets oracle now f s, ?_,
    runAgg_append oracle es1 es2 aggInit⟩
  intro h t hfin hmem
  have hi1 := runAgg_inv oracle es1 aggInit aggInv_init
  have hi2 := runAgg_inv oracle es2 (runAgg oracle es1 aggInit).1 hi1.1
  rcases List.mem_append.mp hmem with hin | hin
  · exact hi2.2.2 h t hin hfin
  · exact finalizeModel_updates_fresh oracle nowF _ hi2.1 h t hin (hi2.2.1 h hfin)

theorem single_open_message_invariant_witness :
    SinkCall.update 5 ("hi".data ++ []) ∈
      (update_stream_if_needed (fun _ => true) 0 true wsState).calls ∧
    wsState.streamingMsgTs = some 5 :=
  ⟨by decide,
   (single_open_message_invariant (fun _ => true) [] [] 0).1 wsState 0 true 5
     ("hi".data ++ []) (by decide)⟩

end StreamerModel
